import Mathlib

/-
Verification of the StreamAlert alert processor
(stream_alert/alert_processor/main.py).

The module is embedded shallowly:

* JSON values (the alerts, envelope messages and the routing configuration
  that json.loads produces) are the inductive type Json below.  Python
  dictionaries decoded from JSON are association lists in document order;
  JSON numbers are modelled as integers, which is enough for every claim
  considered here.
* Python operations that can raise are Except-valued: Except.error models
  an uncaught Python exception (KeyError, TypeError, AttributeError, ...).
* The functions handler, run, _sort_dict and _load_output_config are
  translated from main.py; helper definitions model the Python built-ins
  they use (subscript, membership test, str.split, set(...), truthiness).
-/

/-- A JSON value, as produced by json.loads.  Objects are association lists
in document order; numbers are modelled as integers (no claim depends on
fractional values). -/
inductive Json where
  | null : Json
  | bool (b : Bool) : Json
  | num (n : Int) : Json
  | str (s : String) : Json
  | arr (elems : List Json) : Json
  | obj (entries : List (String × Json)) : Json
deriving Repr

/-- First value bound to a key in a Python dictionary, modelled as an
association list (Python dictionaries have unique keys, so the first match
is the binding). -/
def lookupJ (k : String) : List (String × Json) → Option Json
  | [] => none
  | (k', v) :: rest => if k' == k then some v else lookupJ k rest

/-- Python truthiness of a JSON value: None, False, 0, empty string, empty
list and empty dict are falsy. -/
def truthy : Json → Bool
  | Json.null => false
  | Json.bool b => b
  | Json.num n => n != 0
  | Json.str s => !s.isEmpty
  | Json.arr l => !l.isEmpty
  | Json.obj l => !l.isEmpty

/-- Python subscript value[key] with a string key: dictionary lookup, where
a missing key raises KeyError and a non-dictionary value raises TypeError.
Both uncaught exceptions are modelled as Except.error. -/
def pyGet (j : Json) (k : String) : Except Unit Json :=
  match j with
  | Json.obj l =>
    match lookupJ k l with
    | some v => Except.ok v
    | none => Except.error ()
  | _ => Except.error ()

/-- Python value.get(key): returns the binding or None on a dictionary;
raises AttributeError on anything else. -/
def pyDictGet (j : Json) (k : String) : Except Unit (Option Json) :=
  match j with
  | Json.obj l => Except.ok (lookupJ k l)
  | _ => Except.error ()

/-- Does the character list hay begin with the character list needle? -/
def charsBeginWith : List Char → List Char → Bool
  | [], _ => true
  | _ :: _, [] => false
  | a :: as, b :: bs => a == b && charsBeginWith as bs

/-- Does needle occur as a contiguous run inside hay (Python substring
test)? -/
def charsContain : List Char → List Char → Bool
  | needle, [] => needle.isEmpty
  | needle, c :: cs => charsBeginWith needle (c :: cs) || charsContain needle cs

mutual
/-- Python equality of JSON values (only used to compare a string with
list elements; a string is == only to an equal string). -/
def jsonBeq : Json → Json → Bool
  | Json.null, Json.null => true
  | Json.bool a, Json.bool b => a == b
  | Json.num a, Json.num b => a == b
  | Json.str a, Json.str b => a == b
  | Json.arr a, Json.arr b => jsonListBeq a b
  | Json.obj a, Json.obj b => jsonObjBeq a b
  | _, _ => false

def jsonListBeq : List Json → List Json → Bool
  | [], [] => true
  | a :: as, b :: bs => jsonBeq a b && jsonListBeq as bs
  | _, _ => false

def jsonObjBeq : List (String × Json) → List (String × Json) → Bool
  | [], [] => true
  | (k, v) :: as, (k', v') :: bs => k == k' && jsonBeq v v' && jsonObjBeq as bs
  | _, _ => false
end

/-- Python membership test, string k in j: key membership for a dictionary,
element equality for a list, substring test for a string; anything else
raises TypeError. -/
def pyIn (k : String) (j : Json) : Except Unit Bool :=
  match j with
  | Json.obj l => Except.ok ((lookupJ k l).isSome)
  | Json.arr l => Except.ok (l.any (fun v => jsonBeq v (Json.str k)))
  | Json.str s => Except.ok (charsContain k.data s.data)
  | _ => Except.error ()

/-- Splits a character list at every colon (the pieces, in order). -/
def splitColonChars : List Char → List (List Char)
  | [] => [[]]
  | c :: cs =>
    match splitColonChars cs with
    | [] => [[c]]
    | piece :: pieces =>
      if c == ':' then [] :: piece :: pieces else (c :: piece) :: pieces

/-- Python str.split with separator a colon: every occurrence splits, empty
pieces are kept, and the empty string yields one empty piece. -/
def pySplitColon (s : String) : List String :=
  (splitColonChars s.data).map (fun l => String.mk l)

/-- Byte-wise lexicographic comparison of character lists, as Python
compares strings. -/
def charListLe : List Char → List Char → Bool
  | [], _ => true
  | _ :: _, [] => false
  | a :: as, b :: bs =>
    a.toNat < b.toNat || (a.toNat == b.toNat && charListLe as bs)

/-- String comparison used by sorted(..., key=lambda t: t[0]). -/
def strLeB (a b : String) : Bool := charListLe a.data b.data

/-- Is a list of strings in non-decreasing order? -/
def strSorted : List String → Bool
  | [] => true
  | [_] => true
  | a :: b :: rest => strLeB a b && strSorted (b :: rest)

/-- Stable insertion of one key-value pair into a key-sorted list (the
element being inserted precedes entries with an equal key, matching the
stability of Python sorted). -/
def insertPair (p : String × Json) : List (String × Json) → List (String × Json)
  | [] => [p]
  | q :: rest => if strLeB p.1 q.1 then p :: q :: rest else q :: insertPair p rest

/-- Stable sort of the items of a dictionary by key: the model of
sorted(unordered_dict.items(), key=lambda t: t[0]). -/
def sortPairs : List (String × Json) → List (String × Json)
  | [] => []
  | p :: rest => insertPair p (sortPairs rest)

theorem sizeOf_insertPair (p : String × Json) (l : List (String × Json)) :
    sizeOf (insertPair p l) = sizeOf (p :: l) := by
  induction l with
  | nil => simp [insertPair]
  | cons q rest ih =>
    by_cases h : strLeB p.1 q.1 = true
    · simp [insertPair, h]
    · simp only [insertPair, if_neg h, List.cons.sizeOf_spec, ih]
      omega

theorem sizeOf_sortPairs (l : List (String × Json)) :
    sizeOf (sortPairs l) = sizeOf l := by
  induction l with
  | nil => simp [sortPairs]
  | cons p rest ih =>
    simp only [sortPairs, sizeOf_insertPair, List.cons.sizeOf_spec]
    omega

mutual
/-- _sort_dict (main.py lines 157-174): builds a new OrderedDict from the
items sorted by key, recursing into every value that is itself a
dictionary.  Values that are not dictionaries (scalars and lists, lists
included when they contain dictionaries) are copied through unchanged. -/
def _sort_dict (unordered_dict : List (String × Json)) : List (String × Json) :=
  sortEntries (sortPairs unordered_dict)
termination_by 2 * sizeOf unordered_dict + 1
decreasing_by
  simp only [sizeOf_sortPairs]
  omega

/-- The loop body of _sort_dict: for each already-sorted item, recurse when
the value is a dictionary and copy it through otherwise. -/
def sortEntries : List (String × Json) → List (String × Json)
  | [] => []
  | (key, Json.obj m) :: rest => (key, Json.obj (_sort_dict m)) :: sortEntries rest
  | (key, value) :: rest => (key, value) :: sortEntries rest
termination_by l => 2 * sizeOf l
decreasing_by
  · simp only [List.cons.sizeOf_spec, Prod.mk.sizeOf_spec, Json.obj.sizeOf_spec]
    omega
  · simp only [List.cons.sizeOf_spec]
    omega
  · simp only [List.cons.sizeOf_spec]
    omega
end

/-- The canonicalization step as applied to the alert at main.py line 118:
the alert reaching that line is a decoded JSON dictionary, on which
_sort_dict is invoked. -/
def canonicalizeJson : Json → Json
  | Json.obj l => Json.obj (_sort_dict l)
  | v => v

/-- The value transform applied by the loop body of _sort_dict: recurse on
a dictionary, copy anything else through. -/
def sortedValue : Json → Json
  | Json.obj m => Json.obj (_sort_dict m)
  | v => v

mutual
/-- Structural mirror of the value transform of _sort_dict (recursion
before sorting instead of after; the two orders agree because the sort
compares keys only, which sortDictEq proves below). -/
def sortValS : Json → Json
  | Json.obj m => Json.obj (sortPairs (sortEntriesS m))
  | v => v

/-- Structural mirror of sortEntries. -/
def sortEntriesS : List (String × Json) → List (String × Json)
  | [] => []
  | (k, v) :: rest => (k, sortValS v) :: sortEntriesS rest
end

mutual
/-- Keys are in non-decreasing order at this object and, recursively, at
every object reachable through object values; arrays are not entered. -/
def mapsSorted : Json → Bool
  | Json.obj l => strSorted (l.map Prod.fst) && mapsSortedEntries l
  | _ => true

def mapsSortedEntries : List (String × Json) → Bool
  | [] => true
  | (_, v) :: rest => mapsSorted v && mapsSortedEntries rest
end

mutual
/-- Keys are in non-decreasing order at every object of the value,
including objects nested inside arrays. -/
def mapsSortedDeep : Json → Bool
  | Json.obj l => strSorted (l.map Prod.fst) && mapsSortedDeepEntries l
  | Json.arr l => mapsSortedDeepList l
  | _ => true

def mapsSortedDeepEntries : List (String × Json) → Bool
  | [] => true
  | (_, v) :: rest => mapsSortedDeep v && mapsSortedDeepEntries rest

def mapsSortedDeepList : List Json → Bool
  | [] => true
  | v :: rest => mapsSortedDeep v && mapsSortedDeepList rest
end

mutual
/-- Full key-order normalization: sorts the keys of every object,
including objects nested inside arrays.  Two values have the same normAll
image exactly when they agree up to the order of keys, so normAll equality
expresses that only key order differs. -/
def normAll : Json → Json
  | Json.obj l => Json.obj (sortPairs (normEntries l))
  | Json.arr l => Json.arr (normList l)
  | v => v

def normEntries : List (String × Json) → List (String × Json)
  | [] => []
  | (k, v) :: rest => (k, normAll v) :: normEntries rest

def normList : List Json → List Json
  | [] => []
  | v :: rest => normAll v :: normList rest
end

/-- Modelled from the spec: the per-service sender capability (section 4.4
and the interface note of section 1), a single operation
dispatch(descriptor, rule_name, alert) returning a success boolean; a raised
exception is modelled as Except.error. -/
def Dispatcher : Type := String → Json → Json → Except Unit Bool

/-- Modelled from the spec: get_output_dispatcher from
stream_alert.alert_processor.outputs, which is imported by main.py but is
not part of the sources here.  Per section 4.4 of the spec it receives the
service name, region, function name and configuration and returns the
capability for the service, or null when none is registered.  All theorems
below quantify over the registry. -/
def Registry : Type := String → String → String → Json → Option Dispatcher

/-- Outcome of one iteration of the output loop of run (main.py lines
122-155) for a single destination token: the token was improperly formatted
(lines 124-129), the service or descriptor was not in the configuration
(lines 131-133), no dispatcher was available (lines 138-139), or a dispatch
call was made with the given sent status (lines 143-155). -/
inductive TokenOutcome where
  | malformed : TokenOutcome
  | unknown : TokenOutcome
  | noDispatcher : TokenOutcome
  | dispatched (sent : Bool) : TokenOutcome
deriving Repr, DecidableEq

/-- One iteration of the output loop of run (main.py lines 122-155):
split the token on colons and unpack into service and descriptor (exactly
two pieces or ValueError, caught at line 125), check the configuration,
look up the dispatcher, and dispatch, with any exception from the dispatch
call caught and sent left False. -/
def resolveToken (config : Json) (reg : Registry) (region function_name : String)
    (rule_name alert : Json) (output : String) : Except Unit TokenOutcome :=
  match pySplitColon output with
  | [service, descriptor] =>
    match pyIn service config with
    | Except.error e => Except.error e
    | Except.ok false => Except.ok TokenOutcome.unknown
    | Except.ok true =>
      match pyGet config service with
      | Except.error e => Except.error e
      | Except.ok sub =>
        match pyIn descriptor sub with
        | Except.error e => Except.error e
        | Except.ok false => Except.ok TokenOutcome.unknown
        | Except.ok true =>
          match reg service region function_name config with
          | none => Except.ok TokenOutcome.noDispatcher
          | some dispatcher =>
            match dispatcher descriptor rule_name alert with
            | Except.ok sent => Except.ok (TokenOutcome.dispatched sent)
            | Except.error _ => Except.ok (TokenOutcome.dispatched false)
  | _ => Except.ok TokenOutcome.malformed

/-- set(outputs) at main.py line 122: deduplication of the destination
tokens of one alert.  Python set iteration order is unspecified; the model
fixes one order, which no claim depends on. -/
def uniqueTokens (outputs : List String) : List String := outputs.dedup

/-- The output loop of run (main.py lines 122-155) over the deduplicated
tokens: a result pair is yielded exactly for the tokens whose iteration
reaches the dispatch call. -/
def dispatchLoop (config : Json) (reg : Registry) (region function_name : String)
    (rule_name alert : Json) : List String → Except Unit (List (Bool × String))
  | [] => Except.ok []
  | output :: rest =>
    match resolveToken config reg region function_name rule_name alert output with
    | Except.error e => Except.error e
    | Except.ok outcome =>
      match dispatchLoop config reg region function_name rule_name alert rest with
      | Except.error e => Except.error e
      | Except.ok results =>
        match outcome with
        | TokenOutcome.dispatched sent => Except.ok ((sent, output) :: results)
        | _ => Except.ok results

/-- The elements of a JSON array when all of them are strings. -/
def jsonStrs : List Json → Except Unit (List String)
  | [] => Except.ok []
  | Json.str s :: rest =>
    match jsonStrs rest with
    | Except.ok r => Except.ok (s :: r)
    | Except.error e => Except.error e
  | _ :: _ => Except.error ()

/-- The outputs value as iterated by set(outputs) at line 122: a JSON array
of strings yields its elements, a dictionary yields its keys, a string
yields its characters; numbers, booleans and null are not iterable
(TypeError).  An array containing a non-string raises when the loop calls
split on that element; the model raises before the loop, which yields the
same handler outcome (the batch aborts with no returned results). -/
def strListOfJson : Json → Except Unit (List String)
  | Json.arr l => jsonStrs l
  | Json.obj l => Except.ok (l.map Prod.fst)
  | Json.str s => Except.ok (s.data.map (fun c => String.mk [c]))
  | _ => Except.error ()

/-- run (main.py lines 79-155): extract the alert under the default key,
read metadata.rule_name from the original alert, canonicalize the alert
with _sort_dict, read metadata.outputs from the canonicalized alert, and
iterate the output loop over set(outputs).  Subscripts on missing keys or
wrongly-typed values raise, and nothing in run or handler catches those
exceptions. -/
def run (loaded_sns_message : Json) (region function_name : String)
    (config : Json) (reg : Registry) : Except Unit (List (Bool × String)) :=
  match pyGet loaded_sns_message "default" with
  | Except.error e => Except.error e
  | Except.ok alert =>
    match pyGet alert "metadata" with
    | Except.error e => Except.error e
    | Except.ok md =>
      match pyGet md "rule_name" with
      | Except.error e => Except.error e
      | Except.ok rule_name =>
        match pyGet (canonicalizeJson alert) "metadata" with
        | Except.error e => Except.error e
        | Except.ok md2 =>
          match pyGet md2 "outputs" with
          | Except.error e => Except.error e
          | Except.ok outputsJ =>
            match strListOfJson outputsJ with
            | Except.error e => Except.error e
            | Except.ok outputs =>
              dispatchLoop config reg region function_name rule_name
                (canonicalizeJson alert) (uniqueTokens outputs)

/-- The on-disk routing configuration file as _load_output_config sees it:
the file cannot be opened, the content is not valid JSON, or the content
parses to a JSON value. -/
inductive ConfigFile where
  | unreadable : ConfigFile
  | unparsable : ConfigFile
  | content (c : Json) : ConfigFile

/-- _load_output_config (main.py lines 176-189): open raises when the file
cannot be opened and nothing catches that exception; a json.load failure
(ValueError) is caught and logged and the function returns None; otherwise
the parsed value is returned. -/
def _load_output_config (file : ConfigFile) : Except Unit (Option Json) :=
  match file with
  | ConfigFile.unreadable => Except.error ()
  | ConfigFile.unparsable => Except.ok none
  | ConfigFile.content c => Except.ok (some c)

/-- The AWS Lambda context as used by handler: an ARN-like invocation
identifier and the function name. -/
structure Ctx where
  invoked_function_arn : String
  function_name : String

/-- The record loop of handler (main.py lines 56-74): per record, fetch the
Sns value (AttributeError on a non-dictionary record), skip the record when
it is missing or falsy, subscript Message (KeyError when absent from a
truthy Sns dictionary), json.loads the string (a ValueError skips the
record, a non-string raises), skip messages without a default key, and
extend the accumulated results with the output of run.  jparse models
json.loads on the payload string: none is a ValueError. -/
def processRecords (region function_name : String) (config : Json) (reg : Registry)
    (jparse : String → Option Json) : List Json → Except Unit (List (Bool × String))
  | [] => Except.ok []
  | record :: rest =>
    match pyDictGet record "Sns" with
    | Except.error e => Except.error e
    | Except.ok none => processRecords region function_name config reg jparse rest
    | Except.ok (some sns_payload) =>
      if truthy sns_payload then
        match pyGet sns_payload "Message" with
        | Except.error e => Except.error e
        | Except.ok (Json.str sns_message) =>
          match jparse sns_message with
          | none => processRecords region function_name config reg jparse rest
          | some loaded =>
            match pyIn "default" loaded with
            | Except.error e => Except.error e
            | Except.ok true =>
              match run loaded region function_name config reg with
              | Except.error e => Except.error e
              | Except.ok res =>
                match processRecords region function_name config reg jparse rest with
                | Except.error e => Except.error e
                | Except.ok more => Except.ok (res ++ more)
            | Except.ok false =>
              match pyIn "AlarmName" loaded with
              | Except.error e => Except.error e
              | Except.ok _ => processRecords region function_name config reg jparse rest
        | Except.ok _ => Except.error ()
      else processRecords region function_name config reg jparse rest

/-- handler (main.py lines 27-77): read Records from the event (default
empty; a non-list Records value is outside the modelled event shape), load
the routing configuration and return None when it is missing or falsy,
extract the region as the fourth colon-separated field of the invocation
ARN (IndexError when absent), then run the record loop and return the
accumulated status values.  Except.ok none is the Python return with no
value; Except.error is an uncaught exception escaping to the caller. -/
def handler (event : Json) (context : Ctx) (file : ConfigFile) (reg : Registry)
    (jparse : String → Option Json) : Except Unit (Option (List (Bool × String))) :=
  match pyDictGet event "Records" with
  | Except.error e => Except.error e
  | Except.ok recordsOpt =>
    match recordsOpt.getD (Json.arr []) with
    | Json.arr records =>
      match _load_output_config file with
      | Except.error e => Except.error e
      | Except.ok none => Except.ok none
      | Except.ok (some config) =>
        if truthy config then
          match (pySplitColon context.invoked_function_arn)[3]? with
          | none => Except.error ()
          | some region =>
            match processRecords region context.function_name config reg jparse records with
            | Except.error e => Except.error e
            | Except.ok vals => Except.ok (some vals)
        else Except.ok none
    | _ => Except.error ()

/-! Lemmas about the key sort. -/

theorem charListLe_total (as bs : List Char) :
    charListLe as bs = true ∨ charListLe bs as = true := by
  induction as generalizing bs with
  | nil => left; simp [charListLe]
  | cons a as ih =>
    cases bs with
    | nil => right; simp [charListLe]
    | cons b bs =>
      rcases Nat.lt_trichotomy a.toNat b.toNat with h | h | h
      · left; simp [charListLe, h]
      · rcases ih bs with h2 | h2
        · left; simp [charListLe, h, h2]
        · right; simp [charListLe, h.symm, h2]
      · right; simp [charListLe, h]

theorem strLeB_total (a b : String) : strLeB a b = true ∨ strLeB b a = true :=
  charListLe_total a.data b.data

theorem strSorted_insertPair (p : String × Json) (l : List (String × Json))
    (h : strSorted (l.map Prod.fst) = true) :
    strSorted ((insertPair p l).map Prod.fst) = true := by
  induction l with
  | nil => simp [insertPair, strSorted]
  | cons q r ih =>
    by_cases hpq : strLeB p.1 q.1 = true
    · simpa [insertPair, hpq, strSorted] using h
    · have hqp : strLeB q.1 p.1 = true := by
        rcases strLeB_total p.1 q.1 with h1 | h1
        · exact absurd h1 hpq
        · exact h1
      rw [insertPair, if_neg hpq]
      cases r with
      | nil => simp [insertPair, strSorted, hqp]
      | cons s r' =>
        have hqs : strLeB q.1 s.1 = true := by
          simp [strSorted] at h
          exact h.1
        have hr : strSorted ((s :: r').map Prod.fst) = true := by
          simp [strSorted] at h ⊢
          exact h.2
        have htail := ih hr
        by_cases hps : strLeB p.1 s.1 = true
        · rw [insertPair, if_pos hps] at htail ⊢
          simp [strSorted] at htail ⊢
          exact ⟨hqp, htail⟩
        · rw [insertPair, if_neg hps] at htail ⊢
          simp [strSorted] at htail ⊢
          exact ⟨hqs, htail⟩

theorem sortPairs_sorted (l : List (String × Json)) :
    strSorted ((sortPairs l).map Prod.fst) = true := by
  induction l with
  | nil => simp [sortPairs, strSorted]
  | cons p r ih => exact strSorted_insertPair p (sortPairs r) ih

theorem sortPairs_eq_self (l : List (String × Json))
    (h : strSorted (l.map Prod.fst) = true) : sortPairs l = l := by
  induction l with
  | nil => rfl
  | cons p r ih =>
    cases r with
    | nil => rfl
    | cons q r' =>
      simp [strSorted] at h
      rw [sortPairs, ih (by simp [strSorted]; exact h.2), insertPair, if_pos h.1]

theorem sortPairs_idem (l : List (String × Json)) :
    sortPairs (sortPairs l) = sortPairs l :=
  sortPairs_eq_self (sortPairs l) (sortPairs_sorted l)

theorem insertPair_perm (p : String × Json) (l : List (String × Json)) :
    List.Perm (insertPair p l) (p :: l) := by
  induction l with
  | nil => exact List.Perm.refl _
  | cons q r ih =>
    by_cases hpq : strLeB p.1 q.1 = true
    · rw [insertPair, if_pos hpq]
    · rw [insertPair, if_neg hpq]
      exact List.Perm.trans (List.Perm.cons q ih) (List.Perm.swap p q r)

theorem sortPairs_perm (l : List (String × Json)) : List.Perm (sortPairs l) l := by
  induction l with
  | nil => exact List.Perm.refl _
  | cons p r ih =>
    exact List.Perm.trans (insertPair_perm p (sortPairs r)) (List.Perm.cons p ih)

theorem insertPair_map (F : Json → Json) (p : String × Json) (l : List (String × Json)) :
    insertPair (p.1, F p.2) (l.map (fun q => (q.1, F q.2)))
      = (insertPair p l).map (fun q => (q.1, F q.2)) := by
  induction l with
  | nil => rfl
  | cons q r ih =>
    by_cases hpq : strLeB p.1 q.1 = true
    · simp [insertPair, hpq]
    · simp [insertPair, hpq, ih]

theorem sortPairs_map (F : Json → Json) (l : List (String × Json)) :
    sortPairs (l.map (fun q => (q.1, F q.2)))
      = (sortPairs l).map (fun q => (q.1, F q.2)) := by
  induction l with
  | nil => rfl
  | cons p r ih => simp [sortPairs, ih, insertPair_map]

theorem sortEntriesS_eq_map (l : List (String × Json)) :
    sortEntriesS l = l.map (fun q => (q.1, sortValS q.2)) := by
  induction l with
  | nil => rfl
  | cons p r ih => simp [sortEntriesS, ih]

theorem sortEntriesS_sortPairs (l : List (String × Json)) :
    sortEntriesS (sortPairs l) = sortPairs (sortEntriesS l) := by
  rw [sortEntriesS_eq_map, sortEntriesS_eq_map, sortPairs_map]

theorem keys_sortEntriesS (l : List (String × Json)) :
    (sortEntriesS l).map Prod.fst = l.map Prod.fst := by
  rw [sortEntriesS_eq_map, List.map_map]
  rfl

mutual
/-- _sort_dict agrees with its structural mirror: sorting first and then
recursing into dictionary values equals recursing first and then sorting,
because the sort compares keys only. -/
theorem sortDictEq (d : List (String × Json)) :
    _sort_dict d = sortPairs (sortEntriesS d) := by
  rw [_sort_dict, sortEntriesEq (sortPairs d), sortEntriesS_sortPairs]
termination_by 2 * sizeOf d + 1
decreasing_by
  simp only [sizeOf_sortPairs]
  omega

theorem sortEntriesEq (l : List (String × Json)) : sortEntries l = sortEntriesS l := by
  match l with
  | [] => simp [sortEntries, sortEntriesS]
  | (k, Json.obj m) :: rest =>
    simp only [sortEntries, sortEntriesS, sortValS]
    rw [sortDictEq m, sortEntriesEq rest]
  | (k, Json.null) :: rest =>
    simp only [sortEntries, sortEntriesS, sortValS]
    rw [sortEntriesEq rest]
  | (k, Json.bool b) :: rest =>
    simp only [sortEntries, sortEntriesS, sortValS]
    rw [sortEntriesEq rest]
  | (k, Json.num n) :: rest =>
    simp only [sortEntries, sortEntriesS, sortValS]
    rw [sortEntriesEq rest]
  | (k, Json.str s) :: rest =>
    simp only [sortEntries, sortEntriesS, sortValS]
    rw [sortEntriesEq rest]
  | (k, Json.arr a) :: rest =>
    simp only [sortEntries, sortEntriesS, sortValS]
    rw [sortEntriesEq rest]
termination_by 2 * sizeOf l
decreasing_by
  all_goals simp only [List.cons.sizeOf_spec, Prod.mk.sizeOf_spec, Json.obj.sizeOf_spec]
  all_goals omega
end

mutual
theorem sortValS_idem (v : Json) : sortValS (sortValS v) = sortValS v := by
  match v with
  | Json.obj m =>
    show sortValS (Json.obj (sortPairs (sortEntriesS m))) = _
    rw [show sortValS (Json.obj (sortPairs (sortEntriesS m)))
        = Json.obj (sortPairs (sortEntriesS (sortPairs (sortEntriesS m)))) from rfl,
      sortEntriesS_sortPairs, sortPairs_idem, sortEntriesS_idem m]
    rfl
  | Json.null => rfl
  | Json.bool b => rfl
  | Json.num n => rfl
  | Json.str s => rfl
  | Json.arr a => rfl

theorem sortEntriesS_idem (l : List (String × Json)) :
    sortEntriesS (sortEntriesS l) = sortEntriesS l := by
  match l with
  | [] => rfl
  | (k, v) :: rest =>
    show (k, sortValS (sortValS v)) :: sortEntriesS (sortEntriesS rest) = _
    rw [sortValS_idem v, sortEntriesS_idem rest]
    rfl
end

theorem mapsSortedEntries_eq_all (l : List (String × Json)) :
    mapsSortedEntries l = l.all (fun p => mapsSorted p.2) := by
  induction l with
  | nil => rfl
  | cons p rest ih =>
    cases p with
    | mk k v => simp [mapsSortedEntries, ih]

theorem mapsSortedEntries_sortPairs (l : List (String × Json)) :
    mapsSortedEntries (sortPairs l) = mapsSortedEntries l := by
  rw [mapsSortedEntries_eq_all, mapsSortedEntries_eq_all, Bool.eq_iff_iff]
  simp only [List.all_eq_true]
  constructor
  · intro h p hp
    exact h p ((sortPairs_perm l).mem_iff.mpr hp)
  · intro h p hp
    exact h p ((sortPairs_perm l).mem_iff.mp hp)

mutual
theorem mapsSorted_sortValS (v : Json) : mapsSorted (sortValS v) = true := by
  match v with
  | Json.obj m =>
    show mapsSorted (Json.obj (sortPairs (sortEntriesS m))) = true
    rw [show mapsSorted (Json.obj (sortPairs (sortEntriesS m)))
        = (strSorted ((sortPairs (sortEntriesS m)).map Prod.fst)
            && mapsSortedEntries (sortPairs (sortEntriesS m))) from rfl,
      sortPairs_sorted, mapsSortedEntries_sortPairs, mapsSortedEntries_sortEntriesS m]
    rfl
  | Json.null => rfl
  | Json.bool b => rfl
  | Json.num n => rfl
  | Json.str s => rfl
  | Json.arr a => rfl

theorem mapsSortedEntries_sortEntriesS (l : List (String × Json)) :
    mapsSortedEntries (sortEntriesS l) = true := by
  match l with
  | [] => rfl
  | (k, v) :: rest =>
    show (mapsSorted (sortValS v) && mapsSortedEntries (sortEntriesS rest)) = true
    rw [mapsSorted_sortValS v, mapsSortedEntries_sortEntriesS rest]
    rfl
end

theorem normEntries_eq_map (l : List (String × Json)) :
    normEntries l = l.map (fun q => (q.1, normAll q.2)) := by
  induction l with
  | nil => rfl
  | cons p rest ih =>
    cases p with
    | mk k v => simp [normEntries, ih]

theorem normEntries_sortPairs (l : List (String × Json)) :
    normEntries (sortPairs l) = sortPairs (normEntries l) := by
  rw [normEntries_eq_map, normEntries_eq_map, sortPairs_map]

mutual
theorem normAll_sortValS (v : Json) : normAll (sortValS v) = normAll v := by
  match v with
  | Json.obj m =>
    show normAll (Json.obj (sortPairs (sortEntriesS m))) = _
    rw [show normAll (Json.obj (sortPairs (sortEntriesS m)))
        = Json.obj (sortPairs (normEntries (sortPairs (sortEntriesS m)))) from rfl,
      normEntries_sortPairs, sortPairs_idem, normEntries_sortEntriesS m]
    rfl
  | Json.null => rfl
  | Json.bool b => rfl
  | Json.num n => rfl
  | Json.str s => rfl
  | Json.arr a => rfl

theorem normEntries_sortEntriesS (l : List (String × Json)) :
    normEntries (sortEntriesS l) = normEntries l := by
  match l with
  | [] => rfl
  | (k, v) :: rest =>
    show (k, normAll (sortValS v)) :: normEntries (sortEntriesS rest) = _
    rw [normAll_sortValS v, normEntries_sortEntriesS rest]
    rfl
end

/-! Lemmas about the output loop. -/

theorem dispatchLoop_mem (config : Json) (reg : Registry) (region fn : String)
    (rn al : Json) (toks : List String) (res : List (Bool × String)) (s : Bool) (t : String)
    (h : dispatchLoop config reg region fn rn al toks = Except.ok res)
    (hm : (s, t) ∈ res) :
    resolveToken config reg region fn rn al t = Except.ok (TokenOutcome.dispatched s)
      ∧ t ∈ toks := by
  induction toks generalizing res with
  | nil =>
    simp only [dispatchLoop, Except.ok.injEq] at h
    subst h
    simp at hm
  | cons u rest ih =>
    simp only [dispatchLoop] at h
    cases h1 : resolveToken config reg region fn rn al u with
    | error e => rw [h1] at h; exact absurd h (by simp)
    | ok outcome =>
      rw [h1] at h
      cases h2 : dispatchLoop config reg region fn rn al rest with
      | error e => rw [h2] at h; exact absurd h (by simp)
      | ok results =>
        rw [h2] at h
        cases outcome with
        | dispatched sent =>
          simp only [Except.ok.injEq] at h
          subst h
          rcases List.mem_cons.mp hm with heq | hmem
          · have hs : s = sent := congrArg Prod.fst heq
            have ht : t = u := congrArg Prod.snd heq
            refine ⟨?_, ?_⟩
            · rw [ht, hs]; exact h1
            · rw [ht]; exact List.mem_cons_self _ _
          · obtain ⟨hr, hmem2⟩ := ih _ h2 hmem
            exact ⟨hr, List.mem_cons_of_mem u hmem2⟩
        | malformed =>
          simp only [Except.ok.injEq] at h
          obtain ⟨hr, hmem2⟩ := ih _ h2 (h ▸ hm)
          exact ⟨hr, List.mem_cons_of_mem u hmem2⟩
        | unknown =>
          simp only [Except.ok.injEq] at h
          obtain ⟨hr, hmem2⟩ := ih _ h2 (h ▸ hm)
          exact ⟨hr, List.mem_cons_of_mem u hmem2⟩
        | noDispatcher =>
          simp only [Except.ok.injEq] at h
          obtain ⟨hr, hmem2⟩ := ih _ h2 (h ▸ hm)
          exact ⟨hr, List.mem_cons_of_mem u hmem2⟩

theorem dispatchLoop_filter (config : Json) (reg : Registry) (region fn : String)
    (rn al : Json) (toks : List String) (res : List (Bool × String)) (t : String) (s : Bool)
    (hnd : toks.Nodup) (hmem : t ∈ toks)
    (hres : resolveToken config reg region fn rn al t = Except.ok (TokenOutcome.dispatched s))
    (h : dispatchLoop config reg region fn rn al toks = Except.ok res) :
    res.filter (fun p => p.2 == t) = [(s, t)] := by
  induction toks generalizing res with
  | nil => simp at hmem
  | cons u rest ih =>
    have hnotr : u ∉ rest := (List.nodup_cons.mp hnd).1
    have hndr : rest.Nodup := (List.nodup_cons.mp hnd).2
    simp only [dispatchLoop] at h
    cases h1 : resolveToken config reg region fn rn al u with
    | error e => rw [h1] at h; exact absurd h (by simp)
    | ok outcome =>
      rw [h1] at h
      cases h2 : dispatchLoop config reg region fn rn al rest with
      | error e => rw [h2] at h; exact absurd h (by simp)
      | ok results =>
        rw [h2] at h
        rcases List.mem_cons.mp hmem with rfl | hmemr
        · rw [hres] at h1
          injection h1 with hx
          subst hx
          simp only [Except.ok.injEq] at h
          subst h
          have hfilnil : results.filter (fun p => p.2 == t) = [] := by
            rw [List.filter_eq_nil_iff]
            intro a ha hp
            have ht2 : a.2 = t := by simpa using hp
            obtain ⟨_, hmem3⟩ := dispatchLoop_mem config reg region fn rn al rest results
              a.1 a.2 h2 (by cases a; simpa using ha)
            rw [ht2] at hmem3
            exact hnotr hmem3
          simp [List.filter, hfilnil]
        · have hut : u ≠ t := fun hcontra => hnotr (hcontra ▸ hmemr)
          cases outcome with
          | dispatched sent =>
            simp only [Except.ok.injEq] at h
            subst h
            have hne : (u == t) = false := by
              simp [hut]
            simp only [List.filter, hne]
            exact ih _ hndr hmemr h2
          | malformed =>
            simp only [Except.ok.injEq] at h
            subst h
            exact ih _ hndr hmemr h2
          | unknown =>
            simp only [Except.ok.injEq] at h
            subst h
            exact ih _ hndr hmemr h2
          | noDispatcher =>
            simp only [Except.ok.injEq] at h
            subst h
            exact ih _ hndr hmemr h2

theorem dispatchLoop_filter_nil (config : Json) (reg : Registry) (region fn : String)
    (rn al : Json) (toks : List String) (res : List (Bool × String)) (t : String)
    (h : dispatchLoop config reg region fn rn al toks = Except.ok res)
    (hcond : ∀ s : Bool,
      resolveToken config reg region fn rn al t = Except.ok (TokenOutcome.dispatched s) →
      t ∉ toks) :
    res.filter (fun p => p.2 == t) = [] := by
  rw [List.filter_eq_nil_iff]
  intro a ha hp
  have ht2 : a.2 = t := by simpa using hp
  obtain ⟨hr, hmem⟩ := dispatchLoop_mem config reg region fn rn al toks res a.1 a.2 h
    (by cases a; simpa using ha)
  rw [ht2] at hr hmem
  exact hcond a.1 hr hmem

theorem dispatchLoop_filter_length (config : Json) (reg : Registry) (region fn : String)
    (rn al : Json) (toks : List String) (res : List (Bool × String)) (t : String)
    (hnd : toks.Nodup)
    (h : dispatchLoop config reg region fn rn al toks = Except.ok res) :
    (res.filter (fun p => p.2 == t)).length ≤ 1 := by
  by_cases hmem : t ∈ toks
  · cases h3 : resolveToken config reg region fn rn al t with
    | error e =>
      rw [dispatchLoop_filter_nil config reg region fn rn al toks res t h
        (fun s hs => by rw [h3] at hs; simp at hs)]
      simp
    | ok outcome =>
      cases outcome with
      | dispatched s =>
        rw [dispatchLoop_filter config reg region fn rn al toks res t s hnd hmem h3 h]
        simp
      | malformed =>
        rw [dispatchLoop_filter_nil config reg region fn rn al toks res t h
          (fun s hs => by rw [h3] at hs; simp at hs)]
        simp
      | unknown =>
        rw [dispatchLoop_filter_nil config reg region fn rn al toks res t h
          (fun s hs => by rw [h3] at hs; simp at hs)]
        simp
      | noDispatcher =>
        rw [dispatchLoop_filter_nil config reg region fn rn al toks res t h
          (fun s hs => by rw [h3] at hs; simp at hs)]
        simp
  · rw [dispatchLoop_filter_nil config reg region fn rn al toks res t h (fun _ _ => hmem)]
    simp

theorem run_ok_loop (msg : Json) (region fn : String) (config : Json) (reg : Registry)
    (res : List (Bool × String)) (h : run msg region fn config reg = Except.ok res) :
    ∃ rn al2 outs,
      dispatchLoop config reg region fn rn al2 (uniqueTokens outs) = Except.ok res := by
  unfold run at h
  repeat' split at h
  all_goals first
  | exact absurd h (by simp)
  | exact ⟨_, _, _, h⟩

/-! Lookups in the canonicalized alert. -/

theorem charListLe_refl (as : List Char) : charListLe as as = true := by
  induction as with
  | nil => rfl
  | cons a rest ih => simp [charListLe, ih]

theorem strLeB_refl (a : String) : strLeB a a = true := charListLe_refl a.data

theorem lookupJ_insertPair (k : String) (p : String × Json) (l : List (String × Json)) :
    lookupJ k (insertPair p l) = lookupJ k (p :: l) := by
  induction l with
  | nil => rfl
  | cons q r ih =>
    by_cases hle : strLeB p.1 q.1 = true
    · rw [insertPair, if_pos hle]
    · rw [insertPair, if_neg hle]
      by_cases hq : q.1 == k
      · by_cases hp : p.1 == k
        · exfalso
          have : p.1 = q.1 := by
            have h1 : q.1 = k := by simpa using hq
            have h2 : p.1 = k := by simpa using hp
            rw [h1, h2]
          rw [this] at hle
          exact hle (strLeB_refl q.1)
        · simp [lookupJ, hq, hp]
      · simp [lookupJ, hq, ih]

theorem lookupJ_sortPairs (k : String) (l : List (String × Json)) :
    lookupJ k (sortPairs l) = lookupJ k l := by
  induction l with
  | nil => rfl
  | cons p r ih =>
    rw [sortPairs, lookupJ_insertPair]
    simp [lookupJ, ih]

theorem lookupJ_sortEntriesS (k : String) (l : List (String × Json)) :
    lookupJ k (sortEntriesS l) = (lookupJ k l).map sortValS := by
  induction l with
  | nil => rfl
  | cons p r ih =>
    cases p with
    | mk k' v =>
      by_cases hk : k' == k
      · simp [sortEntriesS, lookupJ, hk]
      · simp [sortEntriesS, lookupJ, hk, ih]

theorem lookupJ_sort_dict (k : String) (l : List (String × Json)) :
    lookupJ k (_sort_dict l) = (lookupJ k l).map sortValS := by
  rw [sortDictEq, lookupJ_sortPairs, lookupJ_sortEntriesS]

theorem canonicalizeJson_eq (v : Json) : canonicalizeJson v = sortValS v := by
  cases v with
  | obj l =>
    show Json.obj (_sort_dict l) = _
    rw [sortDictEq]
    rfl
  | null => rfl
  | bool b => rfl
  | num n => rfl
  | str s => rfl
  | arr a => rfl

/-- Does the alert have the shape run needs: a dictionary whose metadata
key holds a dictionary with both rule_name and outputs present? -/
def hasAlertKeys : Json → Bool
  | Json.obj l =>
    match lookupJ "metadata" l with
    | some (Json.obj m) => (lookupJ "rule_name" m).isSome && (lookupJ "outputs" m).isSome
    | _ => false
  | _ => false

/-- An SNS record carrying the given payload string. -/
def mkSnsRecord (s : String) : Json :=
  Json.obj [("Sns", Json.obj [("Message", Json.str s)])]

/-- A concrete routing configuration fixture. -/
def cfgW : Json :=
  Json.obj [("slack", Json.arr [Json.str "ok"]), ("pd", Json.arr [Json.str "x"])]

/-- A registry fixture: the slack dispatcher succeeds, the pd dispatcher
raises, no other service has a dispatcher. -/
def regW : Registry := fun service _ _ _ =>
  if service == "slack" then some (fun _ _ _ => Except.ok true)
  else if service == "pd" then some (fun _ _ _ => Except.error ())
  else none

/-- A registry fixture with no dispatchers at all. -/
def regNone : Registry := fun _ _ _ _ => none

/-- A context fixture whose ARN has a region in its fourth field. -/
def ctxW : Ctx :=
  { invoked_function_arn := "arn:aws:lambda:us-east-1:123:function:f"
    function_name := "f" }

/-- An alert whose only nested mapping sits inside a sequence. -/
def c1Input : List (String × Json) :=
  [("a", Json.arr [Json.obj [("b", Json.null), ("a", Json.null)]])]

/-- Claim C1, as stated, is refuted here: _sort_dict does not sort the keys
of a mapping nested inside a sequence.  On the input
{"a": [{"b": null, "a": null}]} the canonicalized alert still contains the
inner mapping with keys in the order b, a, so not every mapping-typed
substructure has sorted keys. -/
theorem sort_dict_not_deep_sorted :
    mapsSortedDeep (Json.obj (_sort_dict c1Input)) = false := by
  rw [sortDictEq]
  rfl

/-- Claim C1 (amended): after canonicalization every mapping-typed
substructure reachable through mapping values only - not through sequences
- has its keys in sorted order; mappings nested inside sequences are passed
through unchanged and are not sorted. -/
theorem sort_dict_sorted_outside_sequences (d : List (String × Json)) :
    mapsSorted (Json.obj (_sort_dict d)) = true := by
  rw [sortDictEq]
  exact mapsSorted_sortValS (Json.obj d)

/-- Claim C6: canonicalization is idempotent.  For every JSON value, and in
particular for every finite acyclic nested mapping, canonicalizing twice
gives the same result as canonicalizing once. -/
theorem canonicalize_idempotent (x : Json) :
    canonicalizeJson (canonicalizeJson x) = canonicalizeJson x := by
  rw [canonicalizeJson_eq x, canonicalizeJson_eq (sortValS x), sortValS_idem]

/-- Claim C7: canonicalization preserves content and only reorders keys.
The key list of the canonicalized mapping is a permutation of the original
key list, and the two values have the same image under the full key-order
normalization normAll, i.e. they agree at every level and every path up to
the order of keys.  The embedding is pure, so the input value is not
modified. -/
theorem sort_dict_preserves_content (d : List (String × Json)) :
    List.Perm ((_sort_dict d).map Prod.fst) (d.map Prod.fst)
      ∧ normAll (Json.obj (_sort_dict d)) = normAll (Json.obj d) := by
  constructor
  · rw [sortDictEq]
    have h1 : List.Perm ((sortPairs (sortEntriesS d)).map Prod.fst)
        ((sortEntriesS d).map Prod.fst) := (sortPairs_perm _).map _
    rw [keys_sortEntriesS] at h1
    exact h1
  · rw [sortDictEq]
    exact normAll_sortValS (Json.obj d)

theorem resolveToken_malformed_aux (config : Json) (reg : Registry) (region fn : String)
    (rn al : Json) (tok : String) (htok : (pySplitColon tok).length ≠ 2) :
    resolveToken config reg region fn rn al tok = Except.ok TokenOutcome.malformed := by
  unfold resolveToken
  cases hsplit : pySplitColon tok with
  | nil => rfl
  | cons a as =>
    cases as with
    | nil => rfl
    | cons b bs =>
      cases bs with
      | nil => exact absurd (by rw [hsplit]; rfl) htok
      | cons c cs => rfl

/-- A routing configuration binding the empty service name. -/
def cfgEmptyService : Json := Json.obj [("", Json.arr [Json.str "desc"])]

/-- A registry fixture that has a dispatcher for every service, and the
dispatcher always reports success. -/
def regAlways : Registry := fun _ _ _ _ => some (fun _ _ _ => Except.ok true)

/-- Claim C3, as stated, is refuted here: the token ":desc" does not split
into two non-empty parts, yet the code treats any two-piece split as well
formed, so under the routing configuration that binds the empty service
name the token resolves, a dispatcher is called, and a DispatchResult is
emitted. -/
theorem resolve_empty_service_dispatches_cex :
    resolveToken cfgEmptyService regAlways "us-east-1" "f" (Json.str "r") (Json.obj []) ":desc"
        = Except.ok (TokenOutcome.dispatched true)
      ∧ dispatchLoop cfgEmptyService regAlways "us-east-1" "f" (Json.str "r") (Json.obj [])
          [":desc"] = Except.ok [(true, ":desc")] :=
  ⟨rfl, rfl⟩

/-- Claim C3 (amended): a destination token whose colon split does not
yield exactly two pieces (for example "slack" or "a:b:c") records the
malformed-destination outcome, never yields a DispatchResult, and never
consults the registry or a dispatcher (the outcome is the same under every
registry).  A token that splits into two pieces, even empty ones such as
":desc", passes the unpacking step and is instead subject to the
configuration lookup. -/
theorem resolve_nonpair_token_malformed (config : Json) (reg : Registry)
    (region fn : String) (rn al : Json) (tok : String)
    (htok : (pySplitColon tok).length ≠ 2) :
    resolveToken config reg region fn rn al tok = Except.ok TokenOutcome.malformed
      ∧ (∀ (toks : List String) (res : List (Bool × String)) (s : Bool),
          dispatchLoop config reg region fn rn al toks = Except.ok res → (s, tok) ∉ res)
      ∧ (∀ reg2 : Registry,
          resolveToken config reg2 region fn rn al tok
            = resolveToken config reg region fn rn al tok) := by
  refine ⟨resolveToken_malformed_aux config reg region fn rn al tok htok, ?_, ?_⟩
  · intro toks res s h hmem
    obtain ⟨hr, _⟩ := dispatchLoop_mem config reg region fn rn al toks res s tok h hmem
    rw [resolveToken_malformed_aux config reg region fn rn al tok htok] at hr
    simp at hr
  · intro reg2
    rw [resolveToken_malformed_aux config reg region fn rn al tok htok,
      resolveToken_malformed_aux config reg2 region fn rn al tok htok]

/-- Witness for the amended claim C3, at the token "a:b:c". -/
theorem resolve_nonpair_token_malformed_witness :
    resolveToken cfgW regNone "us-east-1" "f" (Json.str "r") (Json.obj []) "a:b:c"
      = Except.ok TokenOutcome.malformed :=
  (resolve_nonpair_token_malformed cfgW regNone "us-east-1" "f" (Json.str "r") (Json.obj [])
    "a:b:c" (by decide)).1

/-- Claim C5: a dispatcher call that raises is contained.  For any token of
one alert whose resolution reaches the dispatch call (outcome dispatched s)
the output loop emits exactly one result for that token, never zero and
never two - in particular this holds for every other token of the same
alert that reaches a dispatch call - and when the dispatcher call raised,
the emitted sent flag is false. -/
theorem dispatch_failure_contained (config : Json) (reg : Registry) (region fn : String)
    (rn al : Json) (toks : List String) (res : List (Bool × String)) (t : String) (s : Bool)
    (hnd : toks.Nodup) (hmem : t ∈ toks)
    (hres : resolveToken config reg region fn rn al t = Except.ok (TokenOutcome.dispatched s))
    (h : dispatchLoop config reg region fn rn al toks = Except.ok res) :
    res.filter (fun p => p.2 == t) = [(s, t)]
      ∧ ∀ (service descriptor : String) (dispatcher : Dispatcher),
          pySplitColon t = [service, descriptor] →
          reg service region fn config = some dispatcher →
          dispatcher descriptor rn al = Except.error () →
          s = false := by
  refine ⟨dispatchLoop_filter config reg region fn rn al toks res t s hnd hmem hres h, ?_⟩
  intro service descriptor dispatcher hsplit hreg hdisp
  unfold resolveToken at hres
  rw [hsplit] at hres
  dsimp only at hres
  cases h1 : pyIn service config with
  | error e => rw [h1] at hres; simp at hres
  | ok b =>
    rw [h1] at hres
    cases b with
    | false => simp at hres
    | true =>
      dsimp only at hres
      cases h2 : pyGet config service with
      | error e => rw [h2] at hres; simp at hres
      | ok sub =>
        rw [h2] at hres
        dsimp only at hres
        cases h3 : pyIn descriptor sub with
        | error e => rw [h3] at hres; simp at hres
        | ok b2 =>
          rw [h3] at hres
          cases b2 with
          | false => simp at hres
          | true =>
            dsimp only at hres
            rw [hreg] at hres
            dsimp only at hres
            rw [hdisp] at hres
            simp at hres
            exact hres

/-- Witness for claim C5: under cfgW and regW the pd dispatcher raises, the
slack dispatcher succeeds, and the loop over the two tokens emits exactly
one result per token, with sent false for the raising one. -/
theorem dispatch_failure_contained_witness :
    (([((false : Bool), "pd:x"), (true, "slack:ok")] : List (Bool × String)).filter
      (fun p => p.2 == "pd:x")) = [(false, "pd:x")] :=
  (dispatch_failure_contained cfgW regW "us-east-1" "f" (Json.str "r") (Json.obj [])
    ["pd:x", "slack:ok"] [(false, "pd:x"), (true, "slack:ok")] "pd:x" false
    (by decide) (by decide) (by rfl) (by rfl)).1

/-- Claim C8: duplicate destination tokens produce at most one dispatch
attempt and at most one DispatchResult per unique token.  Whenever run
returns results, at most one of them carries any given token, and the
deduplicated token list that the loop iterates contains any given token at
most once. -/
theorem run_dedup_unique_dispatch (msg : Json) (region fn : String) (config : Json)
    (reg : Registry) (res : List (Bool × String)) (t : String)
    (h : run msg region fn config reg = Except.ok res) :
    (res.filter (fun p => p.2 == t)).length ≤ 1
      ∧ ∀ outs : List String, (uniqueTokens outs).count t ≤ 1 := by
  constructor
  · obtain ⟨rn, al2, outs, hl⟩ := run_ok_loop msg region fn config reg res h
    exact dispatchLoop_filter_length config reg region fn rn al2 (uniqueTokens outs) res t
      (List.nodup_dedup outs) hl
  · intro outs
    exact List.nodup_iff_count_le_one.mp (List.nodup_dedup outs) t

/-- An envelope message fixture whose alert lists the slack token twice. -/
def msgW : Json :=
  Json.obj [("default", Json.obj [
    ("record", Json.null),
    ("metadata", Json.obj [
      ("rule_name", Json.str "r1"),
      ("outputs", Json.arr [Json.str "slack:ok", Json.str "slack:ok", Json.str "pd:x"])])])]


theorem run_eval_steps (msg : Json) (region fn : String) (config : Json) (reg : Registry)
    (alert md rn md2 outsJ : Json) (outs : List String)
    (h1 : pyGet msg "default" = Except.ok alert)
    (h2 : pyGet alert "metadata" = Except.ok md)
    (h3 : pyGet md "rule_name" = Except.ok rn)
    (h4 : pyGet (canonicalizeJson alert) "metadata" = Except.ok md2)
    (h5 : pyGet md2 "outputs" = Except.ok outsJ)
    (h6 : strListOfJson outsJ = Except.ok outs) :
    run msg region fn config reg
      = dispatchLoop config reg region fn rn (canonicalizeJson alert) (uniqueTokens outs) := by
  unfold run
  rw [h1]; dsimp only
  rw [h2]; dsimp only
  rw [h3]; dsimp only
  rw [h4]; dsimp only
  rw [h5]; dsimp only
  rw [h6]

theorem run_error_at_metadata (msg : Json) (region fn : String) (config : Json)
    (reg : Registry) (alert : Json)
    (h1 : pyGet msg "default" = Except.ok alert)
    (h2 : pyGet alert "metadata" = Except.error ()) :
    run msg region fn config reg = Except.error () := by
  unfold run
  rw [h1]; dsimp only
  rw [h2]

theorem run_error_at_rule_name (msg : Json) (region fn : String) (config : Json)
    (reg : Registry) (alert md : Json)
    (h1 : pyGet msg "default" = Except.ok alert)
    (h2 : pyGet alert "metadata" = Except.ok md)
    (h3 : pyGet md "rule_name" = Except.error ()) :
    run msg region fn config reg = Except.error () := by
  unfold run
  rw [h1]; dsimp only
  rw [h2]; dsimp only
  rw [h3]

theorem run_error_at_outputs (msg : Json) (region fn : String) (config : Json)
    (reg : Registry) (alert md rn md2 : Json)
    (h1 : pyGet msg "default" = Except.ok alert)
    (h2 : pyGet alert "metadata" = Except.ok md)
    (h3 : pyGet md "rule_name" = Except.ok rn)
    (h4 : pyGet (canonicalizeJson alert) "metadata" = Except.ok md2)
    (h5 : pyGet md2 "outputs" = Except.error ()) :
    run msg region fn config reg = Except.error () := by
  unfold run
  rw [h1]; dsimp only
  rw [h2]; dsimp only
  rw [h3]; dsimp only
  rw [h4]; dsimp only
  rw [h5]

/-- The alert carried by msgW. -/
def alertW : Json := Json.obj [
    ("record", Json.null),
    ("metadata", Json.obj [
      ("rule_name", Json.str "r1"),
      ("outputs", Json.arr [Json.str "slack:ok", Json.str "slack:ok", Json.str "pd:x"])])]

/-- The canonicalized form of alertW. -/
def alertSortedW : Json := Json.obj [
    ("metadata", Json.obj [
      ("outputs", Json.arr [Json.str "slack:ok", Json.str "slack:ok", Json.str "pd:x"]),
      ("rule_name", Json.str "r1")]),
    ("record", Json.null)]

theorem canonicalize_alertW : canonicalizeJson alertW = alertSortedW := by
  rw [canonicalizeJson_eq alertW]
  rfl

theorem run_msgW_eval :
    run msgW "us-east-1" "f" cfgW regW
      = Except.ok [(true, "slack:ok"), (false, "pd:x")] := by
  rw [run_eval_steps msgW "us-east-1" "f" cfgW regW alertW
    (Json.obj [
      ("rule_name", Json.str "r1"),
      ("outputs", Json.arr [Json.str "slack:ok", Json.str "slack:ok", Json.str "pd:x"])])
    (Json.str "r1")
    (Json.obj [
      ("outputs", Json.arr [Json.str "slack:ok", Json.str "slack:ok", Json.str "pd:x"]),
      ("rule_name", Json.str "r1")])
    (Json.arr [Json.str "slack:ok", Json.str "slack:ok", Json.str "pd:x"])
    ["slack:ok", "slack:ok", "pd:x"]
    rfl rfl rfl (by rw [canonicalize_alertW]; rfl) rfl rfl]
  rw [canonicalize_alertW]
  rfl

/-- Witness for claim C8 on the fixture with a duplicated slack token. -/
theorem run_dedup_unique_dispatch_witness :
    (([(true, "slack:ok"), (false, "pd:x")] : List (Bool × String)).filter
        (fun p => p.2 == "slack:ok")).length ≤ 1 :=
  (run_dedup_unique_dispatch msgW "us-east-1" "f" cfgW regW
    [(true, "slack:ok"), (false, "pd:x")] "slack:ok" run_msgW_eval).1

/-- Claim C9: an envelope message that contains a default key whose alert
is not a mapping holding metadata.rule_name and metadata.outputs makes run
raise an uncaught exception; the exception propagates through the record
loop and out of the handler, aborting the entire batch (nothing is
returned, and the remaining records are never processed). -/
theorem malformed_alert_raises (region fn : String) (config : Json) (reg : Registry)
    (msgL : List (String × Json)) (a : Json)
    (hdef : lookupJ "default" msgL = some a)
    (hbad : hasAlertKeys a = false) :
    run (Json.obj msgL) region fn config reg = Except.error ()
      ∧ (∀ (jparse : String → Option Json) (sp : String) (rest : List Json),
          jparse sp = some (Json.obj msgL) →
          processRecords region fn config reg jparse (mkSnsRecord sp :: rest)
            = Except.error ())
      ∧ (∀ (jparse : String → Option Json) (sp : String) (rest : List Json)
          (ctx : Ctx),
          jparse sp = some (Json.obj msgL) →
          truthy config = true →
          (pySplitColon ctx.invoked_function_arn)[3]? = some region →
          ctx.function_name = fn →
          handler (Json.obj [("Records", Json.arr (mkSnsRecord sp :: rest))]) ctx
            (ConfigFile.content config) reg jparse = Except.error ()) := by
  have hget : pyGet (Json.obj msgL) "default" = Except.ok a := by
    simp [pyGet, hdef]
  have hrun : run (Json.obj msgL) region fn config reg = Except.error () := by
    cases a with
    | obj al =>
      cases hmd : lookupJ "metadata" al with
      | none =>
        exact run_error_at_metadata _ region fn config reg _ hget (by simp [pyGet, hmd])
      | some mv =>
        have hgmd : pyGet (Json.obj al) "metadata" = Except.ok mv := by simp [pyGet, hmd]
        cases mv with
        | obj ml =>
          cases hrn : lookupJ "rule_name" ml with
          | none =>
            exact run_error_at_rule_name _ region fn config reg _ _ hget hgmd
              (by simp [pyGet, hrn])
          | some rn =>
            have houts : lookupJ "outputs" ml = none := by
              cases h2 : lookupJ "outputs" ml with
              | none => rfl
              | some x =>
                exfalso
                unfold hasAlertKeys at hbad
                dsimp only at hbad
                rw [hmd] at hbad
                dsimp only at hbad
                rw [hrn, h2] at hbad
                simp at hbad
            apply run_error_at_outputs (Json.obj msgL) region fn config reg (Json.obj al)
              (Json.obj ml) rn (Json.obj (sortPairs (sortEntriesS ml))) hget hgmd
              (by simp [pyGet, hrn])
            · rw [canonicalizeJson_eq]
              show pyGet (Json.obj (sortPairs (sortEntriesS al))) "metadata" = _
              simp [pyGet, lookupJ_sortPairs, lookupJ_sortEntriesS, hmd]
              rfl
            · simp [pyGet, lookupJ_sortPairs, lookupJ_sortEntriesS, houts]
        | null =>
          exact run_error_at_rule_name _ region fn config reg _ _ hget hgmd rfl
        | bool b =>
          exact run_error_at_rule_name _ region fn config reg _ _ hget hgmd rfl
        | num n =>
          exact run_error_at_rule_name _ region fn config reg _ _ hget hgmd rfl
        | str s =>
          exact run_error_at_rule_name _ region fn config reg _ _ hget hgmd rfl
        | arr l =>
          exact run_error_at_rule_name _ region fn config reg _ _ hget hgmd rfl
    | null => exact run_error_at_metadata _ region fn config reg _ hget rfl
    | bool b => exact run_error_at_metadata _ region fn config reg _ hget rfl
    | num n => exact run_error_at_metadata _ region fn config reg _ hget rfl
    | str s => exact run_error_at_metadata _ region fn config reg _ hget rfl
    | arr l => exact run_error_at_metadata _ region fn config reg _ hget rfl
  have hproc : ∀ (jparse : String → Option Json) (sp : String) (rest : List Json),
      jparse sp = some (Json.obj msgL) →
      processRecords region fn config reg jparse (mkSnsRecord sp :: rest)
        = Except.error () := by
    intro jparse sp rest hp
    unfold processRecords
    rw [show pyDictGet (mkSnsRecord sp) "Sns"
        = Except.ok (some (Json.obj [("Message", Json.str sp)])) from rfl]
    try dsimp only
    rw [show pyGet (Json.obj [("Message", Json.str sp)]) "Message"
        = Except.ok (Json.str sp) from rfl]
    try dsimp only
    rw [hp]
    try dsimp only
    rw [show pyIn "default" (Json.obj msgL)
        = Except.ok ((lookupJ "default" msgL).isSome) from rfl, hdef]
    try dsimp only
    rw [hrun]
    rfl
  refine ⟨hrun, hproc, ?_⟩
  intro jparse sp rest ctx hp hc harn hfn
  unfold handler
  rw [show pyDictGet (Json.obj [("Records", Json.arr (mkSnsRecord sp :: rest))]) "Records"
      = Except.ok (some (Json.arr (mkSnsRecord sp :: rest))) from rfl]
  try dsimp only
  rw [show _load_output_config (ConfigFile.content config)
      = Except.ok (some config) from rfl]
  try dsimp only
  rw [hc]
  try dsimp only
  rw [harn]
  try dsimp only
  rw [hfn]
  rw [show (some (Json.arr (mkSnsRecord sp :: rest))).getD (Json.arr [])
      = Json.arr (mkSnsRecord sp :: rest) from rfl]
  try dsimp only
  rw [hproc jparse sp rest hp]
  rfl

/-- Witness for claim C9 at the message that binds default to null. -/
theorem malformed_alert_raises_witness :
    run (Json.obj [("default", Json.null)]) "us-east-1" "f" cfgW regNone
      = Except.error () :=
  (malformed_alert_raises "us-east-1" "f" cfgW regNone [("default", Json.null)] Json.null
    rfl rfl).1

/-- A record with a truthy Sns dictionary that has no Message key. -/
def c4Record : Json := Json.obj [("Sns", Json.obj [("Type", Json.str "Notification")])]

/-- Claim C4, as stated, is refuted here: a record whose Sns envelope is a
non-empty dictionary without a Message key is not skipped; the subscript
raises an uncaught KeyError and the handler aborts with an exception
instead of continuing the batch. -/
theorem sns_without_message_raises_cex :
    handler (Json.obj [("Records", Json.arr [c4Record])]) ctxW (ConfigFile.content cfgW)
      regNone (fun _ => none) = Except.error () := rfl

/-- Claim C4 (amended): a record whose Sns field is missing, or present but
falsy (for example an empty dictionary), is skipped silently and the rest
of the batch is processed; but a record whose Sns value is a truthy
dictionary without a Message key raises an uncaught KeyError that aborts
the batch. -/
theorem sns_payload_handling :
    (∀ (region fn : String) (config : Json) (reg : Registry)
        (jparse : String → Option Json) (rest : List Json) (l : List (String × Json)),
      (match lookupJ "Sns" l with
        | none => True
        | some v => truthy v = false) →
      processRecords region fn config reg jparse (Json.obj l :: rest)
        = processRecords region fn config reg jparse rest)
    ∧ (∀ (region fn : String) (config : Json) (reg : Registry)
        (jparse : String → Option Json) (rest : List Json)
        (l sl : List (String × Json)),
      lookupJ "Sns" l = some (Json.obj sl) →
      truthy (Json.obj sl) = true →
      lookupJ "Message" sl = none →
      processRecords region fn config reg jparse (Json.obj l :: rest)
        = Except.error ()) := by
  constructor
  · intro region fn config reg jparse rest l h
    conv_lhs => unfold processRecords
    rw [show pyDictGet (Json.obj l) "Sns" = Except.ok (lookupJ "Sns" l) from rfl]
    cases hs : lookupJ "Sns" l with
    | none => rfl
    | some v =>
      rw [hs] at h
      try dsimp only
      rw [h]
      rfl
  · intro region fn config reg jparse rest l sl hsns htr hmsg
    conv_lhs => unfold processRecords
    rw [show pyDictGet (Json.obj l) "Sns" = Except.ok (lookupJ "Sns" l) from rfl, hsns]
    try dsimp only
    rw [htr]
    try dsimp only
    rw [show pyGet (Json.obj sl) "Message" = Except.error () from by simp [pyGet, hmsg]]
    rfl

/-- Witness for the amended claim C4: a record without Sns is skipped and
the batch result is unchanged, and a record with a truthy Sns dictionary
lacking Message aborts with an exception. -/
theorem sns_payload_handling_witness :
    processRecords "us-east-1" "f" cfgW regNone (fun _ => none)
        [Json.obj [("id", Json.num 1)]] = Except.ok []
      ∧ processRecords "us-east-1" "f" cfgW regNone (fun _ => none) [c4Record]
        = Except.error () := by
  constructor
  · rw [sns_payload_handling.1 "us-east-1" "f" cfgW regNone (fun _ => none) []
      [("id", Json.num 1)] trivial]
    rfl
  · exact sns_payload_handling.2 "us-east-1" "f" cfgW regNone (fun _ => none) []
      [("Sns", Json.obj [("Type", Json.str "Notification")])]
      [("Type", Json.str "Notification")] rfl rfl rfl

/-- Claim C2, as stated, is refuted here: when the routing configuration
file cannot be opened, the handler does not return quietly; the exception
from open propagates to the caller. -/
theorem handler_unreadable_config_raises_cex :
    handler (Json.obj [("Records", Json.arr [])]) ctxW ConfigFile.unreadable regNone
      (fun _ => none) = Except.error () := rfl

/-- Claim C2 (amended): when the routing configuration content is not valid
JSON the error is logged inside the loader and the handler returns
immediately with no results and without processing any record; but when
the file cannot be opened the exception from open escapes to the caller
instead of being caught. -/
theorem handler_config_failure_behavior :
    (∀ (recs : List Json) (ctx : Ctx) (reg : Registry) (jparse : String → Option Json),
      handler (Json.obj [("Records", Json.arr recs)]) ctx ConfigFile.unparsable reg jparse
        = Except.ok none)
    ∧ (∀ (recs : List Json) (ctx : Ctx) (reg : Registry) (jparse : String → Option Json),
      handler (Json.obj [("Records", Json.arr recs)]) ctx ConfigFile.unreadable reg jparse
        = Except.error ()) := by
  constructor <;> (intro recs ctx reg jparse; rfl)

/-- Claim C10: a routing configuration that parses to a falsy JSON value
(for example the empty document) aborts the whole batch: the handler
returns with no results, for any batch of records, exactly as it does when
the file content fails to parse. -/
theorem falsy_config_aborts_batch (recs : List Json) (ctx : Ctx) (reg : Registry)
    (jparse : String → Option Json) (c : Json) (hc : truthy c = false) :
    handler (Json.obj [("Records", Json.arr recs)]) ctx (ConfigFile.content c) reg jparse
        = Except.ok none
      ∧ handler (Json.obj [("Records", Json.arr recs)]) ctx (ConfigFile.content c) reg jparse
        = handler (Json.obj [("Records", Json.arr recs)]) ctx ConfigFile.unparsable reg
            jparse := by
  have h1 : handler (Json.obj [("Records", Json.arr recs)]) ctx (ConfigFile.content c)
      reg jparse = Except.ok none := by
    unfold handler
    rw [show pyDictGet (Json.obj [("Records", Json.arr recs)]) "Records"
        = Except.ok (some (Json.arr recs)) from rfl]
    try dsimp only
    rw [show (some (Json.arr recs)).getD (Json.arr []) = Json.arr recs from rfl]
    try dsimp only
    rw [show _load_output_config (ConfigFile.content c) = Except.ok (some c) from rfl]
    try dsimp only
    rw [hc]
    rfl
  exact ⟨h1, by rw [h1]; rfl⟩

/-- Witness for claim C10 at the configuration document with no entries. -/
theorem falsy_config_aborts_batch_witness :
    handler (Json.obj [("Records", Json.arr [])]) ctxW (ConfigFile.content (Json.obj []))
      regNone (fun _ => none) = Except.ok none :=
  (falsy_config_aborts_batch [] ctxW regNone (fun _ => none) (Json.obj []) rfl).1
